import Mathlib

/-!
Shallow embedding of `src/main.py`, a command-line contact manager
(fields Name/Phone/Birthday, Record, AddressBook with pickle persistence,
an `input_error`-wrapped command layer and a line-oriented CLI loop).

Strings are modelled as lists of Unicode codepoints (`List Nat`); the
character-class helpers (`isdigit`, `lower`, whitespace) cover the ASCII
fragment, which is what every literal in the program and every claim uses.
Python exceptions are modelled by `Except PyErr`; in-place object mutation
is modelled by returning the updated dictionary.
-/

namespace Betterbot

/-- Python strings, as lists of Unicode codepoints. -/
abbrev PyStr := List Nat

/-- Embed a Lean string literal as a `PyStr`. -/
def pystr (s : String) : PyStr := s.data.map Char.toNat

/-- ASCII whitespace, the characters `str.split` / `str.strip` split on. -/
def isSp (c : Nat) : Bool :=
  c == 32 || c == 9 || c == 10 || c == 13 || c == 11 || c == 12

/-- ASCII decimal digit (`str.isdigit` on the ASCII fragment). -/
def isDigitCp (c : Nat) : Bool := 48 ≤ c && c ≤ 57

/-- Python `str.isdigit()`: nonempty and all digit characters. -/
def pyIsdigit (s : PyStr) : Bool := !s.isEmpty && s.all isDigitCp

/-- Lowercase one codepoint (`str.lower` on the ASCII fragment). -/
def lowerCp (c : Nat) : Nat := if 65 ≤ c ∧ c ≤ 90 then c + 32 else c

/-- Python `str.lower()`. -/
def pyLower (s : PyStr) : PyStr := s.map lowerCp

/-- Is the first list a prefix of the second (`str.startswith`)? -/
def isPre : PyStr → PyStr → Bool
  | [], _ => true
  | _ :: _, [] => false
  | a :: as, b :: bs => a == b && isPre as bs

/-- Python `needle in hay` on strings: substring occurrence. -/
def strIn (needle : PyStr) : PyStr → Bool
  | [] => needle.isEmpty
  | b :: bs => isPre needle (b :: bs) || strIn needle bs

/-- Drop leading ASCII whitespace. -/
def dropSp : PyStr → PyStr
  | [] => []
  | c :: t => if isSp c then dropSp t else c :: t

/-- Python `str.strip()` (ASCII whitespace). -/
def pyStrip (s : PyStr) : PyStr := ((dropSp s.reverse).reverse |> dropSp)

/-- Python `str.split('-')`: split on every dash, keeping empty pieces. -/
def splitOnDash : PyStr → List PyStr
  | [] => [[]]
  | c :: t =>
    if c == 45 then [] :: splitOnDash t
    else
      match splitOnDash t with
      | h :: r => (c :: h) :: r
      | [] => [[c]]

/-- Value of a nonempty all-digit string, else `none`. -/
def digitsVal (s : PyStr) : Option Nat :=
  if s.isEmpty then none
  else if s.all isDigitCp then
    some (s.foldl (fun acc c => acc * 10 + (c - 48)) 0)
  else none

/-- Python `int(str)` on the ASCII fragment: strip whitespace, optional
sign, then a nonempty run of decimal digits. -/
def parseIntAsc (s : PyStr) : Option Int :=
  match pyStrip s with
  | 43 :: t => (digitsVal t).map Int.ofNat
  | 45 :: t => (digitsVal t).map (fun n => -(Int.ofNat n))
  | t => (digitsVal t).map Int.ofNat

/-- Gregorian leap year, as `datetime.date` uses. -/
def isLeap (y : Int) : Bool := y % 4 == 0 && (y % 100 != 0 || y % 400 == 0)

/-- Length of a month, as `datetime.date` validates. -/
def daysInMonth (y m : Int) : Int :=
  if m == 2 then (if isLeap y then 29 else 28)
  else if m == 4 || m == 6 || m == 9 || m == 11 then 30
  else 31

/-- Does `date(y, m, d)` construct without raising? (`MINYEAR = 1`,
`MAXYEAR = 9999`.) -/
def dateValid (y m d : Int) : Bool :=
  decide (1 ≤ y) && decide (y ≤ 9999) &&
  decide (1 ≤ m) && decide (m ≤ 12) &&
  decide (1 ≤ d) && decide (d ≤ daysInMonth y m)

/-- A `datetime.date`. -/
structure Date where
  year : Int
  month : Int
  day : Int
deriving DecidableEq, Repr

/-- Python date comparison: lexicographic on (year, month, day). -/
def dateLt (a b : Date) : Bool :=
  if a.year < b.year then true
  else if a.year == b.year then
    if a.month < b.month then true
    else if a.month == b.month then decide (a.day < b.day)
    else false
  else false

/-- Day number of a civil date (days since 1970-01-01); differences of
this function give `(d2 - d1).days` of `datetime`. All intermediate
divisions act on nonnegative operands for years ≥ 1. -/
def daysFromCivil (dt : Date) : Int :=
  let y := if dt.month ≤ 2 then dt.year - 1 else dt.year
  let era := (if 0 ≤ y then y else y - 399) / 400
  let yoe := y - era * 400
  let mp := (dt.month + 9) % 12
  let doy := (153 * mp + 2) / 5 + dt.day - 1
  let doe := yoe * 365 + yoe / 4 - yoe / 100 + doy
  era * 146097 + doe - 719468

/-- The date denoted by a `YYYY-MM-DD` string, following
`date(*map(int, value.split('-')))`: exactly three `int()`-parseable
pieces forming a real calendar date (any other piece count raises
`TypeError` inside `date(*args)`, a non-int piece raises `ValueError`;
both are caught and re-raised by `Birthday.validate`). -/
def parseDatePy (s : PyStr) : Option Date :=
  match (splitOnDash s).mapM parseIntAsc with
  | some [y, m, d] => if dateValid y m d then some ⟨y, m, d⟩ else none
  | _ => none

/-- Python exception kinds the program can raise. -/
inductive PyErr where
  | keyError
  | valueError
  | indexError
  | typeError
  | unpicklingError
deriving DecidableEq, Repr

/-- Is this exception one of the kinds `input_error` catches
(`KeyError`, `ValueError`, `IndexError`)? -/
def PyErr.caught : PyErr → Bool
  | .keyError => true
  | .valueError => true
  | .indexError => true
  | _ => false

/-- The `Name` field: `Field.validate` is a no-op, so any string is stored. -/
structure Name where
  value : PyStr
deriving DecidableEq, Repr

/-- The `Phone` field: stores a string that passed `Phone.validate`. -/
structure Phone where
  value : PyStr
deriving DecidableEq, Repr

/-- `Phone.validate`: raises `ValueError` unless the string is all digits
and exactly 10 long. -/
def Phone.validate (s : PyStr) : Except PyErr Unit :=
  if pyIsdigit s = false ∨ s.length ≠ 10 then .error .valueError else .ok ()

/-- `Phone(value)`: the `Field` constructor runs the setter, which
validates before storing. -/
def Phone.make (s : PyStr) : Except PyErr Phone :=
  (Phone.validate s).map (fun _ => ⟨s⟩)

/-- Assignment to `phone.value`: validate first, store only on success
(the setter raises before `self._value = new_value` runs). -/
def Phone.set (_p : Phone) (s : PyStr) : Except PyErr Phone :=
  (Phone.validate s).map (fun _ => ⟨s⟩)

/-- Assignment with the exception observed and discarded: on failure the
field object is unchanged. -/
def Phone.setK (p : Phone) (s : PyStr) : Phone :=
  match p.set s with
  | .ok q => q
  | .error _ => p

/-- The `Birthday` field: stores the raw `YYYY-MM-DD` *string* that passed
validation (validation only checks the string parses; it does not convert). -/
structure Birthday where
  value : PyStr
deriving DecidableEq, Repr

/-- `Birthday.validate`: `date(*map(int, value.split('-')))`, re-raising
`TypeError`/`ValueError` as `ValueError`. -/
def Birthday.validate (s : PyStr) : Except PyErr Unit :=
  if (parseDatePy s).isSome then .ok () else .error .valueError

/-- `Birthday(value)`. -/
def Birthday.make (s : PyStr) : Except PyErr Birthday :=
  (Birthday.validate s).map (fun _ => ⟨s⟩)

/-- A `Record`: one Name, an ordered phone list, an optional Birthday. -/
structure Record where
  name : Name
  phones : List Phone
  birthday : Option Birthday
deriving DecidableEq, Repr

/-- Python truthiness of the optional birthday argument: `None` and the
empty string are falsy. -/
def pyTruthy : Option PyStr → Bool
  | none => false
  | some s => !s.isEmpty

/-- `Record(name, birthday=None)`: `Birthday(birthday) if birthday else None`. -/
def Record.make (name : PyStr) (birthday : Option PyStr) : Except PyErr Record :=
  if pyTruthy birthday then
    match birthday with
    | some b => (Birthday.make b).map (fun bd => ⟨⟨name⟩, [], some bd⟩)
    | none => .ok ⟨⟨name⟩, [], none⟩
  else .ok ⟨⟨name⟩, [], none⟩

/-- `Record.add_phone`: validate, then append (no dedup, no replace). -/
def Record.add_phone (r : Record) (s : PyStr) : Except PyErr Record :=
  (Phone.make s).map (fun p => { r with phones := r.phones ++ [p] })

/-- Calling `str.replace` with a `year` keyword argument: `str.replace`
accepts only positional string arguments, so this raises `TypeError`
unconditionally. (`Birthday` stores the raw string, so this is what
`self.birthday.value.replace(year=...)` does.) -/
def strReplaceYearKw (_s : PyStr) (_y : Int) : Except PyErr Date :=
  .error .typeError

/-- `Record.days_to_birthday`: source lines 51-59, with `today` passed
explicitly in place of `date.today()`. -/
def Record.days_to_birthday (r : Record) (today : Date) : Except PyErr (Option Int) :=
  match r.birthday with
  | none => .ok none
  | some bd => do
    let anchored ← strReplaceYearKw bd.value today.year
    let nb := if dateLt anchored today then { anchored with year := today.year + 1 }
              else anchored
    let d := daysFromCivil nb - daysFromCivil today
    pure (some (if 0 ≤ d then d else 365 + d))

/-- Modelled from the spec: the intended `daysToNextBirthday(today)` —
re-anchor the stored birthday to the current year, to next year if that
date has already passed, and return the day difference (with the
source's `365 +` clause for a negative difference). The code itself
cannot compute this because `Birthday` stores a string, not a date. -/
def daysToNextBirthdaySpec (r : Record) (today : Date) : Option Int :=
  match r.birthday with
  | none => none
  | some bd =>
    match parseDatePy bd.value with
    | none => none
    | some b =>
      let anchor : Date := ⟨today.year, b.month, b.day⟩
      let nb := if dateLt anchor today then { anchor with year := today.year + 1 }
                else anchor
      let d := daysFromCivil nb - daysFromCivil today
      some (if 0 ≤ d then d else 365 + d)

/-- `str(record)`: `"Contact name: {name}, phones: {'; '.join(...)}, birthday: {birthday}"`
(`str(None)` is `"None"`). -/
def recordStr (r : Record) : PyStr :=
  pystr "Contact name: " ++ r.name.value ++ pystr ", phones: " ++
    (List.intercalate (pystr "; ") (r.phones.map Phone.value)) ++
    pystr ", birthday: " ++
    (match r.birthday with
     | none => pystr "None"
     | some bd => bd.value)

/-- Python `dict` as an insertion-ordered association list (first
occurrence of a key is the binding; operations keep keys unique). -/
abbrev Dict (α : Type) := List (PyStr × α)

/-- `d[k]` as an option: the first binding of `k`. -/
def alGet {α : Type} (k : PyStr) : Dict α → Option α
  | [] => none
  | (k', v) :: t => if k' = k then some v else alGet k t

/-- `d[k] = v`: replace an existing binding in place, else append. -/
def alSet {α : Type} (k : PyStr) (v : α) : Dict α → Dict α
  | [] => [(k, v)]
  | (k', v') :: t => if k' = k then (k, v) :: t else (k', v') :: alSet k v t

/-- `del d[k]`: `none` when the key is absent (Python raises `KeyError`). -/
def alDel {α : Type} (k : PyStr) : Dict α → Option (Dict α)
  | [] => none
  | (k', v') :: t =>
    if k' = k then some t
    else (alDel k t).map (fun t' => (k', v') :: t')

/-- `d.values()`, in insertion order. -/
def alValues {α : Type} (d : Dict α) : List α := d.map Prod.snd

/-- Serialized byte-like blob: the codomain of the serializer. -/
abbrev Blob := List Nat

/-- Length-prefixed encoding of one string. -/
def encStr (s : PyStr) : Blob := s.length :: s

/-- Decode one length-prefixed string, returning the remainder. -/
def decStr : Blob → Option (PyStr × Blob)
  | [] => none
  | n :: rest =>
    if n ≤ rest.length then some (rest.take n, rest.drop n) else none

/-- Count-prefixed encoding of a string list. -/
def encStrs (ss : List PyStr) : Blob := ss.length :: ss.flatMap encStr

/-- Decode `k` strings, returning the remainder. -/
def decStrsGo : Nat → Blob → Option (List PyStr × Blob)
  | 0, rest => some ([], rest)
  | k + 1, rest =>
    match decStr rest with
    | none => none
    | some (s, rest₁) =>
      match decStrsGo k rest₁ with
      | none => none
      | some (ss, rest₂) => some (s :: ss, rest₂)

/-- Tagged encoding of an optional string. -/
def encOptStr : Option PyStr → Blob
  | none => [0]
  | some s => 1 :: encStr s

/-- Decode an optional string. -/
def decOptStr : Blob → Option (Option PyStr × Blob)
  | 0 :: rest => some (none, rest)
  | 1 :: rest => (decStr rest).map (fun (s, r) => (some s, r))
  | _ => none

/-- Serialize one `Record`. -/
def encRecord (r : Record) : Blob :=
  encStr r.name.value ++ encStrs (r.phones.map Phone.value) ++
    encOptStr (r.birthday.map Birthday.value)

/-- Decode one `Record`, returning the remainder. -/
def decRecord (b : Blob) : Option (Record × Blob) :=
  match decStr b with
  | none => none
  | some (n, b₁) =>
    match b₁ with
    | [] => none
    | k :: b₂ =>
      match decStrsGo k b₂ with
      | none => none
      | some (ps, b₃) =>
        match decOptStr b₃ with
        | none => none
        | some (bd, b₄) =>
          some (⟨⟨n⟩, ps.map Phone.mk, bd.map Birthday.mk⟩, b₄)

/-- Decode `k` dictionary entries. -/
def decEntriesGo : Nat → Blob → Option (Dict Record × Blob)
  | 0, rest => some ([], rest)
  | k + 1, rest =>
    match decStr rest with
    | none => none
    | some (key, rest₁) =>
      match decRecord rest₁ with
      | none => none
      | some (r, rest₂) =>
        match decEntriesGo k rest₂ with
        | none => none
        | some (es, rest₃) => some ((key, r) :: es, rest₃)

/-- `pickle.dump(self.data, file)`: whole-map serialization. The concrete
format stands in for pickle; what the program relies on — and what this
encoder provides — is that `load` inverts `dump` on every field,
including phone lists and optional birthdays. -/
def pickleDump (d : Dict Record) : Blob :=
  d.length :: d.flatMap (fun (k, r) => encStr k ++ encRecord r)

/-- `pickle.load(file)`: decode one whole map. -/
def pickleLoad : Blob → Option (Dict Record)
  | [] => none
  | n :: rest => (decEntriesGo n rest).map Prod.fst

/-- The file system: association from path to file contents. -/
abbrev FS := List (PyStr × Blob)

/-- `AddressBook`: the `UserDict` data plus the construction-time path. -/
structure AddressBook where
  file_path : PyStr
  data : Dict Record
deriving DecidableEq, Repr

/-- `AddressBook.load_from_file`: read and unpickle; a missing file
(`FileNotFoundError`) yields the empty map; an unreadable blob raises
(`pickle.UnpicklingError` is not caught). -/
def AddressBook.load_from_file (path : PyStr) (fs : FS) : Except PyErr (Dict Record) :=
  match alGet path fs with
  | none => .ok []
  | some blob =>
    match pickleLoad blob with
    | some d => .ok d
    | none => .error .unpicklingError

/-- `AddressBook(file_path)`: store the path and load existing state. -/
def AddressBook.make (path : PyStr) (fs : FS) : Except PyErr AddressBook :=
  (AddressBook.load_from_file path fs).map (fun d => ⟨path, d⟩)

/-- `AddressBook.save_to_file`: overwrite the file with the pickled map. -/
def AddressBook.save_to_file (b : AddressBook) (fs : FS) : FS :=
  alSet b.file_path (pickleDump b.data) fs

/-- `AddressBook.add_record`: insert/overwrite under `record.name.value`,
then persist. -/
def AddressBook.add_record (b : AddressBook) (r : Record) (fs : FS) :
    AddressBook × FS :=
  let b' : AddressBook := ⟨b.file_path, alSet r.name.value r b.data⟩
  (b', b'.save_to_file fs)

/-- `AddressBook.delete`: `del self.data[name]` (`KeyError` when absent),
then persist. -/
def AddressBook.delete (b : AddressBook) (name : PyStr) (fs : FS) :
    Except PyErr (AddressBook × FS) :=
  match alDel name b.data with
  | none => .error .keyError
  | some d =>
    let b' : AddressBook := ⟨b.file_path, d⟩
    .ok (b', b'.save_to_file fs)

/-- What one iteration of the `search` loop appends for one record: the
record once on a case-insensitive name match, and once more per phone
that contains the query case-sensitively. -/
def searchBlock (query : PyStr) (r : Record) : List Record :=
  (if strIn (pyLower query) (pyLower r.name.value) then [r] else []) ++
  ((r.phones.filter (fun p => strIn query p.value)).map (fun _ => r))

/-- `AddressBook.search`: run the loop body over `self.data.values()`. -/
def AddressBook.search (b : AddressBook) (query : PyStr) : List Record :=
  b.data.flatMap (fun kr => searchBlock query kr.2)

/-- The module-level `contacts = {}` the dispatcher operates on. -/
def initialContacts : Dict Record := []

/-- The one user-facing message `input_error` produces. -/
def genericMsg : PyStr := pystr "Error: Invalid input. Try again."

/-- `input_error`: run the operation; a `KeyError`/`ValueError`/`IndexError`
becomes the generic message (any mutation already performed stays);
other exceptions propagate. -/
def inputError (run : Dict Record × Except PyErr PyStr) :
    Dict Record × Except PyErr PyStr :=
  match run with
  | (cts, .error e) => if e.caught then (cts, .ok genericMsg) else (cts, .error e)
  | ok => ok

/-- `add_contact` before wrapping: build the Record, add the phone, store
it under `name`; exceptions abort before the store. -/
def addContactRaw (cts : Dict Record) (name phone : PyStr)
    (birthday : Option PyStr) : Dict Record × Except PyErr PyStr :=
  match Record.make name birthday with
  | .error e => (cts, .error e)
  | .ok contact =>
    match contact.add_phone phone with
    | .error e => (cts, .error e)
    | .ok contact' =>
      (alSet name contact' cts,
       .ok (pystr "The contact " ++ name ++ pystr " with the number " ++
            phone ++ pystr " has been added."))

/-- `add_contact`, wrapped by `input_error`. -/
def add_contact (cts : Dict Record) (name phone : PyStr)
    (birthday : Option PyStr) : Dict Record × Except PyErr PyStr :=
  inputError (addContactRaw cts name phone birthday)

/-- `change_contact` before wrapping: look the contact up (`KeyError` when
absent); when the birthday argument is truthy, replace the contact's
birthday (this mutation is visible even if the later phone validation
fails); then validate-and-append the new phone. -/
def changeContactRaw (cts : Dict Record) (name newPhone : PyStr)
    (newBirthday : Option PyStr) : Dict Record × Except PyErr PyStr :=
  match alGet name cts with
  | none => (cts, .error .keyError)
  | some contact =>
    let step : Except PyErr Record :=
      if pyTruthy newBirthday then
        match newBirthday with
        | some b =>
          match Birthday.make b with
          | .error e => .error e
          | .ok bd => .ok ({ contact with birthday := some bd } : Record)
        | none => .ok contact
      else .ok contact
    match step with
    | .error e => (cts, .error e)
    | .ok c₁ =>
      let cts₁ := alSet name c₁ cts
      match c₁.add_phone newPhone with
      | .error e => (cts₁, .error e)
      | .ok c₂ =>
        (alSet name c₂ cts₁,
         .ok (pystr "The phone number for " ++ name ++
              pystr " has been changed to " ++ newPhone ++ pystr "."))

/-- `change_contact`, wrapped by `input_error`. -/
def change_contact (cts : Dict Record) (name newPhone : PyStr)
    (newBirthday : Option PyStr) : Dict Record × Except PyErr PyStr :=
  inputError (changeContactRaw cts name newPhone newBirthday)

/-- `phone_contact` before wrapping: `contacts[name]` (`KeyError` when
absent), then `contact.phones[0]` (`IndexError` when empty). -/
def phoneContactRaw (cts : Dict Record) (name : PyStr) :
    Dict Record × Except PyErr PyStr :=
  match alGet name cts with
  | none => (cts, .error .keyError)
  | some contact =>
    match contact.phones with
    | [] => (cts, .error .indexError)
    | p :: _ =>
      (cts, .ok (pystr "Phone number for " ++ name ++ pystr ": " ++ p.value))

/-- `phone_contact`, wrapped by `input_error`. -/
def phone_contact (cts : Dict Record) (name : PyStr) :
    Dict Record × Except PyErr PyStr :=
  inputError (phoneContactRaw cts name)

/-- `show_all_contacts`: fixed message when empty, else a header plus one
line per contact, with the final newline stripped. -/
def show_all_contacts (cts : Dict Record) : PyStr :=
  if cts.isEmpty then pystr "You have no contacts saved."
  else
    pyStrip (pystr "List of contacts:" ++ [10] ++
      (alValues cts).flatMap (fun c => recordStr c ++ [10]))

/-- One word of non-whitespace, and the rest. -/
def takeWord : PyStr → PyStr × PyStr
  | [] => ([], [])
  | c :: t =>
    if isSp c then ([], c :: t)
    else
      let (w, r) := takeWord t
      (c :: w, r)

/-- Worker for `pySplit`, with fuel bounding the recursion. -/
def pySplitGo (fuel maxsplit : Nat) (s : PyStr) : List PyStr :=
  match fuel with
  | 0 => []
  | fuel + 1 =>
    match dropSp s with
    | [] => []
    | c :: t =>
      if maxsplit = 0 then [c :: t]
      else
        let (w, r) := takeWord (c :: t)
        w :: pySplitGo fuel (maxsplit - 1) r

/-- Python `str.split(maxsplit=n)`: split on whitespace runs, at most `n`
splits; after the last split the remainder keeps its trailing spaces. -/
def pySplit (maxsplit : Nat) (s : PyStr) : List PyStr :=
  pySplitGo (s.length + 1) maxsplit s

/-- The state one CLI session carries: the dispatcher's `contacts` map,
the `address_book`, and the file system. -/
structure Sess where
  cts : Dict Record
  book : AddressBook
  fs : FS
deriving DecidableEq, Repr

/-- `main`'s startup: `contacts = {}` at module load, then
`AddressBook("address_book_data.pkl")`, which reads the file. -/
def mainStartup (fs : FS) : Except PyErr Sess :=
  (AddressBook.make (pystr "address_book_data.pkl") fs).map
    (fun b => ⟨initialContacts, b, fs⟩)

/-- Mirror of object aliasing for the `change` branch: every record in
`contacts` was placed into `address_book.data` by `add_record` as the
same object, so a mutation `change_contact` makes through `contacts`
is visible in the book whenever the book holds that name. -/
def mirrorChange (name : PyStr) (cts : Dict Record) (bdata : Dict Record) :
    Dict Record :=
  match alGet name cts with
  | some r => if (alGet name bdata).isSome then alSet name r bdata else bdata
  | none => bdata

/-- One iteration of `main`'s loop body applied to an already-lowercased
line: the `elif` chain of source lines 156-186. Output is the list of
printed lines plus a flag for the exit branches; an uncaught exception
(`.error`) aborts the process. -/
def dispatchLine (st : Sess) (s : PyStr) :
    Except PyErr (Sess × List PyStr × Bool) :=
  if s = pystr "exit" ∨ s = pystr "good bye" ∨ s = pystr "close" then
    .ok (st, [pystr "Good bye!"], true)
  else if s = pystr "hello" then
    .ok (st, [pystr "How can I help you?"], false)
  else if isPre (pystr "add") s then
    match pySplit 3 s with
    | _ :: name :: phone :: rest =>
      let birthday := rest.head?
      match add_contact st.cts name phone birthday with
      | (_, .error e) => .error e
      | (cts', .ok msg) =>
        match alGet name cts' with
        | none => .error .keyError
        | some r =>
          let (book', fs') := st.book.add_record r st.fs
          .ok (⟨cts', book', fs'⟩, [msg], false)
    | _ => .error .valueError
  else if isPre (pystr "change") s then
    match pySplit 3 s with
    | _ :: name :: newPhone :: rest =>
      let newBirthday := rest.head?
      match change_contact st.cts name newPhone newBirthday with
      | (_, .error e) => .error e
      | (cts', .ok msg) =>
        let book' : AddressBook :=
          ⟨st.book.file_path, mirrorChange name cts' st.book.data⟩
        let fs' := book'.save_to_file st.fs
        .ok (⟨cts', book', fs'⟩, [msg], false)
    | _ => .error .valueError
  else if isPre (pystr "phone") s then
    match pySplit 1 s with
    | [_, name] =>
      match phone_contact st.cts name with
      | (_, .error e) => .error e
      | (cts', .ok msg) => .ok (⟨cts', st.book, st.fs⟩, [msg], false)
    | _ => .error .valueError
  else if s = pystr "show all" then
    .ok (st, [show_all_contacts st.cts], false)
  else if isPre (pystr "search") s then
    match pySplit 1 s with
    | [_, query] =>
      let results := st.book.search query
      if results.isEmpty then
        .ok (st, [pystr "No matching contacts found."], false)
      else
        .ok (st, pystr "Search results:" :: results.map recordStr, false)
    | _ => .error .valueError
  else
    .ok (st, [pystr "Unknown command. Try again."], false)

/-- One iteration of `main`'s loop: `input(...).lower()` then dispatch. -/
def processLine (st : Sess) (line : PyStr) :
    Except PyErr (Sess × List PyStr × Bool) :=
  dispatchLine st (pyLower line)

/-! ## Helper lemmas -/

instance {ε α : Type} [DecidableEq ε] [DecidableEq α] : DecidableEq (Except ε α)
  | .ok a, .ok b =>
    if h : a = b then .isTrue (by rw [h])
    else .isFalse (by intro hh; cases hh; exact h rfl)
  | .ok _, .error _ => .isFalse (by intro hh; cases hh)
  | .error _, .ok _ => .isFalse (by intro hh; cases hh)
  | .error e, .error f =>
    if h : e = f then .isTrue (by rw [h])
    else .isFalse (by intro hh; cases hh; exact h rfl)

theorem decStr_encStr (s : PyStr) (t : Blob) :
    decStr (encStr s ++ t) = some (s, t) := by
  simp only [encStr, List.cons_append, decStr]
  rw [if_pos (by simp)]
  rw [List.take_left, List.drop_left]

theorem decStrsGo_enc (ss : List PyStr) (t : Blob) :
    decStrsGo ss.length (ss.flatMap encStr ++ t) = some (ss, t) := by
  induction ss generalizing t with
  | nil => rfl
  | cons s rest ih =>
    simp only [List.length_cons, List.flatMap_cons, List.append_assoc, decStrsGo]
    rw [decStr_encStr]
    simp [ih]

theorem decOptStr_enc (o : Option PyStr) (t : Blob) :
    decOptStr (encOptStr o ++ t) = some (o, t) := by
  cases o with
  | none => rfl
  | some s =>
    simp only [encOptStr, List.cons_append, decOptStr]
    rw [decStr_encStr]
    rfl

theorem map_mk_value (ps : List Phone) :
    (ps.map Phone.value).map Phone.mk = ps := by
  induction ps with
  | nil => rfl
  | cons p t ih => simp [ih]

theorem omap_mk_value (o : Option Birthday) :
    (o.map Birthday.value).map Birthday.mk = o := by
  cases o <;> rfl

theorem decRecord_enc (r : Record) (t : Blob) :
    decRecord (encRecord r ++ t) = some (r, t) := by
  obtain ⟨⟨n⟩, ps, bd⟩ := r
  simp only [encRecord, List.append_assoc, decRecord, encStrs, List.cons_append]
  rw [decStr_encStr]
  simp only [decStrsGo_enc, decOptStr_enc, map_mk_value, omap_mk_value]

theorem decEntriesGo_enc (d : Dict Record) (t : Blob) :
    decEntriesGo d.length
      (d.flatMap (fun (k, r) => encStr k ++ encRecord r) ++ t) = some (d, t) := by
  induction d generalizing t with
  | nil => rfl
  | cons e rest ih =>
    obtain ⟨k, r⟩ := e
    simp only [List.length_cons, List.flatMap_cons, List.append_assoc,
      decEntriesGo]
    rw [decStr_encStr]
    simp only [decRecord_enc, ih]

theorem pickleLoad_pickleDump (d : Dict Record) :
    pickleLoad (pickleDump d) = some d := by
  simp only [pickleDump, pickleLoad]
  have h := decEntriesGo_enc d []
  rw [List.append_nil] at h
  rw [h]
  rfl

theorem alGet_alSet_self {α : Type} (k : PyStr) (v : α) (d : Dict α) :
    alGet k (alSet k v d) = some v := by
  induction d with
  | nil => simp [alGet, alSet]
  | cons h t ih =>
    obtain ⟨k', v'⟩ := h
    by_cases hk : k' = k
    · simp [alGet, alSet, hk]
    · simp [alGet, alSet, hk, ih]

theorem alGet_alSet_ne {α : Type} (k k' : PyStr) (v : α) (d : Dict α)
    (h : k' ≠ k) : alGet k' (alSet k v d) = alGet k' d := by
  induction d with
  | nil =>
    simp only [alSet, alGet]
    rw [if_neg (fun hh => h hh.symm)]
  | cons hd t ih =>
    obtain ⟨k₀, v₀⟩ := hd
    by_cases hk : k₀ = k
    · subst hk
      simp only [alSet, if_pos rfl, alGet]
      rw [if_neg (fun hh : k₀ = k' => h hh.symm),
          if_neg (fun hh : k₀ = k' => h hh.symm)]
    · simp only [alSet, if_neg hk, alGet]
      by_cases hk' : k₀ = k'
      · rw [if_pos hk', if_pos hk']
      · rw [if_neg hk', if_neg hk', ih]

theorem phone_validate_ok_iff (s : PyStr) :
    Phone.validate s = .ok () ↔ (s.length = 10 ∧ ∀ c ∈ s, isDigitCp c = true) := by
  unfold Phone.validate
  constructor
  · intro h
    by_cases hc : pyIsdigit s = false ∨ s.length ≠ 10
    · rw [if_pos hc] at h
      cases h
    · push_neg at hc
      obtain ⟨h₁, h₂⟩ := hc
      have hdig : pyIsdigit s = true := by
        cases hb : pyIsdigit s
        · exact absurd hb h₁
        · rfl
      simp only [pyIsdigit, Bool.and_eq_true, List.all_eq_true] at hdig
      exact ⟨h₂, hdig.2⟩
  · rintro ⟨hl, hdg⟩
    have hne : s.isEmpty = false := by
      cases s with
      | nil => simp at hl
      | cons a t => rfl
    have hdig : pyIsdigit s = true := by
      simp [pyIsdigit, hne, List.all_eq_true.mpr hdg]
    rw [if_neg]
    push_neg
    exact ⟨by simp [hdig], hl⟩

theorem phone_validate_cases (s : PyStr) :
    Phone.validate s = .ok () ∨ Phone.validate s = .error .valueError := by
  unfold Phone.validate
  split
  · exact .inr rfl
  · exact .inl rfl

theorem phone_make_ok_iff (s : PyStr) :
    Phone.make s = .ok ⟨s⟩ ↔ (s.length = 10 ∧ ∀ c ∈ s, isDigitCp c = true) := by
  constructor
  · intro h
    rcases phone_validate_cases s with hv | hv
    · exact (phone_validate_ok_iff s).mp hv
    · unfold Phone.make at h
      rw [hv] at h
      cases h
  · intro h
    unfold Phone.make
    rw [(phone_validate_ok_iff s).mpr h]
    rfl

theorem phone_make_not_ok (s : PyStr)
    (h : ¬(s.length = 10 ∧ ∀ c ∈ s, isDigitCp c = true)) :
    Phone.make s = .error .valueError := by
  rcases phone_validate_cases s with hv | hv
  · exact absurd ((phone_validate_ok_iff s).mp hv) h
  · unfold Phone.make
    rw [hv]
    rfl

/-- Keys of a Python dict, in insertion order. -/
def alKeys {α : Type} (d : Dict α) : List PyStr := d.map Prod.fst

theorem alGet_eq_none_of_not_mem {α : Type} (k : PyStr) (d : Dict α)
    (h : k ∉ alKeys d) : alGet k d = none := by
  induction d with
  | nil => rfl
  | cons hd t ih =>
    obtain ⟨k₀, v₀⟩ := hd
    simp only [alKeys, List.map_cons, List.mem_cons] at h
    push_neg at h
    simp only [alGet]
    rw [if_neg (fun hh => h.1 hh.symm)]
    exact ih h.2

theorem alDel_eq_none_iff {α : Type} (k : PyStr) (d : Dict α) :
    alDel k d = none ↔ alGet k d = none := by
  induction d with
  | nil => simp [alDel, alGet]
  | cons hd t ih =>
    obtain ⟨k₀, v₀⟩ := hd
    by_cases hk : k₀ = k
    · simp [alDel, alGet, hk]
    · simp only [alDel, alGet, if_neg hk]
      cases hh : alDel k t with
      | none => simp [(ih.mp hh)]
      | some t' =>
        simp only [Option.map_some']
        constructor
        · intro h; cases h
        · intro h
          rw [h] at ih
          simp at ih
          rw [ih] at hh
          cases hh

theorem alDel_get {α : Type} (k : PyStr) (d d' : Dict α)
    (hnd : (alKeys d).Nodup) (h : alDel k d = some d') :
    alGet k d' = none ∧ ∀ k', k' ≠ k → alGet k' d' = alGet k' d := by
  induction d generalizing d' with
  | nil => cases h
  | cons hd t ih =>
    obtain ⟨k₀, v₀⟩ := hd
    simp only [alKeys, List.map_cons, List.nodup_cons] at hnd
    obtain ⟨hk₀, hnd'⟩ := hnd
    by_cases hk : k₀ = k
    · subst hk
      simp only [alDel, if_pos rfl] at h
      cases h
      refine ⟨alGet_eq_none_of_not_mem k₀ t hk₀, ?_⟩
      intro k' hk'
      simp only [alGet]
      rw [if_neg (fun hh : k₀ = k' => hk' hh.symm)]
    · simp only [alDel, if_neg hk] at h
      cases hh : alDel k t with
      | none =>
        rw [hh] at h
        cases h
      | some t' =>
        rw [hh] at h
        simp only [Option.map_some'] at h
        cases h
        obtain ⟨h₁, h₂⟩ := ih t' hnd' hh
        constructor
        · simp only [alGet]
          rw [if_neg hk]
          exact h₁
        · intro k' hk'
          by_cases hkk : k₀ = k'
          · simp [alGet, hkk]
          · simp only [alGet, if_neg hkk]
            exact h₂ k' hk'

/-- A stored phone value satisfying the validator. -/
def validPhone (p : Phone) : Prop :=
  p.value.length = 10 ∧ ∀ c ∈ p.value, isDigitCp c = true

theorem setK_preserves (p : Phone) (s : PyStr) (h : validPhone p) :
    validPhone (Phone.setK p s) := by
  unfold Phone.setK Phone.set
  rcases phone_validate_cases s with hv | hv
  · rw [hv]
    exact (phone_validate_ok_iff s).mp hv
  · rw [hv]
    exact h

theorem foldl_setK_valid (ss : List PyStr) (p : Phone) (h : validPhone p) :
    validPhone (ss.foldl Phone.setK p) := by
  induction ss generalizing p with
  | nil => exact h
  | cons s t ih => exact ih _ (setK_preserves p s h)

/-! ## Claims -/

/-- C1: the claim says `days_to_birthday` returns absent without a
birthday, and with one returns the day difference to the re-anchored
birthday (0 on the anchor day, ~364 the day after). The code does return
absent when no birthday is set, but with a birthday set it raises
`TypeError`: `Birthday` stores the raw string and
`self.birthday.value.replace(year=...)` calls `str.replace` with a
keyword it does not accept. The intended computation
(`daysToNextBirthdaySpec`) does return 0 and 364 on the claim's dates. -/
theorem C1_days_to_birthday :
    (∀ (r : Record) (t : Date), r.birthday = none →
       r.days_to_birthday t = .ok none)
    ∧ Record.days_to_birthday
        ⟨⟨pystr "ann"⟩, [], some ⟨pystr "2000-03-15"⟩⟩ ⟨2024, 3, 15⟩
        = .error .typeError
    ∧ daysToNextBirthdaySpec
        ⟨⟨pystr "ann"⟩, [], some ⟨pystr "2000-03-15"⟩⟩ ⟨2024, 3, 15⟩ = some 0
    ∧ daysToNextBirthdaySpec
        ⟨⟨pystr "ann"⟩, [], some ⟨pystr "2000-03-15"⟩⟩ ⟨2024, 3, 16⟩ = some 364 := by
  refine ⟨?_, rfl, ?_, ?_⟩
  · intro r t h
    unfold Record.days_to_birthday
    rw [h]
  · rfl
  · rfl

/-- C1 witness: a record with no birthday, evaluated concretely. -/
theorem C1_witness :
    Record.days_to_birthday ⟨⟨pystr "bob"⟩, [], none⟩ ⟨2024, 1, 1⟩ = .ok none :=
  C1_days_to_birthday.1 ⟨⟨pystr "bob"⟩, [], none⟩ ⟨2024, 1, 1⟩ rfl

/-- C2: Phone construction succeeds exactly on all-digit strings of
length 10, and otherwise fails with the validation error. -/
theorem C2_phone_validation :
    ∀ s : PyStr,
      (Phone.make s = .ok ⟨s⟩ ↔ (s.length = 10 ∧ ∀ c ∈ s, isDigitCp c = true))
      ∧ (Phone.make s = .ok ⟨s⟩ ∨ Phone.make s = .error .valueError) := by
  intro s
  refine ⟨phone_make_ok_iff s, ?_⟩
  by_cases h : s.length = 10 ∧ ∀ c ∈ s, isDigitCp c = true
  · exact .inl ((phone_make_ok_iff s).mpr h)
  · exact .inr (phone_make_not_ok s h)

/-- C2 witness: the 10-digit string "0123456789" constructs. -/
theorem C2_witness :
    Phone.make (pystr "0123456789") = .ok ⟨pystr "0123456789"⟩ :=
  (C2_phone_validation (pystr "0123456789")).1.mpr (by decide)

/-- C3: saving an AddressBook and loading from the same path reconstructs
the whole name-to-record map — every record, every phone list, every
optional birthday — and `AddressBook.__init__` on that file rebuilds an
equal book. -/
theorem C3_roundtrip :
    ∀ (b : AddressBook) (fs : FS),
      AddressBook.load_from_file b.file_path (b.save_to_file fs) = .ok b.data
      ∧ AddressBook.make b.file_path (b.save_to_file fs) =
          .ok ⟨b.file_path, b.data⟩ := by
  intro b fs
  have h : AddressBook.load_from_file b.file_path (b.save_to_file fs) =
      .ok b.data := by
    unfold AddressBook.load_from_file AddressBook.save_to_file
    rw [alGet_alSet_self]
    simp [pickleLoad_pickleDump]
  refine ⟨h, ?_⟩
  unfold AddressBook.make
  rw [h]
  rfl

/-- C5: deleting an absent name raises `KeyError` (no silent no-op);
deleting a present name removes exactly that entry and writes the
pickled remainder back to the book's own file path. -/
theorem C5_delete :
    ∀ (b : AddressBook) (name : PyStr) (fs : FS),
      (alKeys b.data).Nodup →
      (alGet name b.data = none →
        AddressBook.delete b name fs = .error .keyError)
      ∧ (∀ r, alGet name b.data = some r →
          ∃ d', AddressBook.delete b name fs =
              .ok (⟨b.file_path, d'⟩, alSet b.file_path (pickleDump d') fs)
            ∧ alGet name d' = none
            ∧ ∀ k, k ≠ name → alGet k d' = alGet k b.data) := by
  intro b name fs hnd
  constructor
  · intro hmiss
    unfold AddressBook.delete
    rw [(alDel_eq_none_iff name b.data).mpr hmiss]
  · intro r hhit
    cases hdel : alDel name b.data with
    | none =>
      rw [(alDel_eq_none_iff name b.data).mp hdel] at hhit
      cases hhit
    | some d' =>
      refine ⟨d', ?_, alDel_get name b.data d' hnd hdel⟩
      unfold AddressBook.delete
      rw [hdel]
      rfl

/-- C5 witness: deleting "bob" from an empty book raises `KeyError`. -/
theorem C5_witness :
    AddressBook.delete ⟨pystr "address_book_data.pkl", []⟩ (pystr "bob") [] =
      .error .keyError :=
  (C5_delete ⟨pystr "address_book_data.pkl", []⟩ (pystr "bob") []
    (by decide)).1 rfl

theorem mem_search_block (q : PyStr) (rec r : Record) :
    r ∈ searchBlock q rec
    ↔ (r = rec ∧
        (strIn (pyLower q) (pyLower rec.name.value) = true ∨
         ∃ p ∈ rec.phones, strIn q p.value = true)) := by
  unfold searchBlock
  by_cases hn : strIn (pyLower q) (pyLower rec.name.value) = true
  · rw [if_pos hn, List.cons_append, List.nil_append]
    constructor
    · intro h
      rcases List.mem_cons.mp h with rfl | hmap
      · exact ⟨rfl, .inl hn⟩
      · obtain ⟨p, _, heq⟩ := List.mem_map.mp hmap
        cases heq
        exact ⟨rfl, .inl hn⟩
    · rintro ⟨rfl, _⟩
      exact List.mem_cons_self _ _
  · rw [if_neg hn, List.nil_append]
    constructor
    · intro h
      obtain ⟨p, hpf, heq⟩ := List.mem_map.mp h
      cases heq
      obtain ⟨hpm, hpq⟩ := List.mem_filter.mp hpf
      exact ⟨rfl, .inr ⟨p, hpm, hpq⟩⟩
    · rintro ⟨rfl, hm | ⟨p, hpm, hpq⟩⟩
      · exact absurd hm hn
      · exact List.mem_map.mpr ⟨p, List.mem_filter.mpr ⟨hpm, hpq⟩, rfl⟩

theorem mem_search_iff (b : AddressBook) (q : PyStr) (r : Record) :
    r ∈ b.search q ↔
      (r ∈ alValues b.data ∧
        (strIn (pyLower q) (pyLower r.name.value) = true ∨
         ∃ p ∈ r.phones, strIn q p.value = true)) := by
  unfold AddressBook.search
  rw [List.mem_flatMap]
  constructor
  · rintro ⟨⟨k, rec⟩, hmem, hblk⟩
    obtain ⟨rfl, hmatch⟩ := (mem_search_block q rec r).mp hblk
    exact ⟨List.mem_map.mpr ⟨(k, r), hmem, rfl⟩, hmatch⟩
  · rintro ⟨hv, hmatch⟩
    obtain ⟨⟨k, rec⟩, hmem, hsnd⟩ := List.mem_map.mp hv
    cases hsnd
    exact ⟨(k, rec), hmem, (mem_search_block q rec rec).mpr ⟨rfl, hmatch⟩⟩

theorem count_search_block (q : PyStr) (r : Record)
    (hn : strIn (pyLower q) (pyLower r.name.value) = true)
    (hp : ∃ p ∈ r.phones, strIn q p.value = true) :
    2 ≤ (searchBlock q r).count r := by
  obtain ⟨p, hpm, hpq⟩ := hp
  unfold searchBlock
  rw [List.count_append]
  have h₁ : (if strIn (pyLower q) (pyLower r.name.value) then [r]
      else ([] : List Record)).count r = 1 := by
    rw [if_pos hn]
    simp [List.count_cons]
  have h₂ : 1 ≤ ((r.phones.filter (fun p => strIn q p.value)).map
      (fun _ => r)).count r := by
    have hpf : p ∈ r.phones.filter (fun p => strIn q p.value) :=
      List.mem_filter.mpr ⟨hpm, hpq⟩
    have hrm : r ∈ (r.phones.filter (fun p => strIn q p.value)).map
        (fun _ => r) := List.mem_map.mpr ⟨p, hpf, rfl⟩
    exact List.one_le_count_iff.mpr hrm
  omega

/-- C4: `search(query)` returns exactly the records with a
case-insensitive name match or a case-sensitive phone-substring match,
and when both the name and some phone match, the record occurs at least
twice in the result list. -/
theorem C4_search :
    ∀ (b : AddressBook) (q : PyStr) (r : Record),
      (r ∈ b.search q ↔
        (r ∈ alValues b.data ∧
          (strIn (pyLower q) (pyLower r.name.value) = true ∨
           ∃ p ∈ r.phones, strIn q p.value = true)))
      ∧ (r ∈ alValues b.data →
         strIn (pyLower q) (pyLower r.name.value) = true →
         (∃ p ∈ r.phones, strIn q p.value = true) →
         2 ≤ (b.search q).count r) := by
  intro b q r
  refine ⟨mem_search_iff b q r, ?_⟩
  intro hv hn hp
  obtain ⟨path, data⟩ := b
  unfold AddressBook.search
  obtain ⟨⟨k, rec⟩, hmem, hsnd⟩ := List.mem_map.mp hv
  cases hsnd
  obtain ⟨l₁, l₂, hsplit⟩ := List.append_of_mem hmem
  simp only at hsplit ⊢
  subst hsplit
  rw [List.flatMap_append, List.flatMap_cons, List.count_append,
    List.count_append]
  have hblk := count_search_block q rec hn hp
  simp only at hblk ⊢
  omega

/-- C4 witness: name "a123" and phone "0012300000" both contain "123",
so the record is listed twice. -/
theorem C4_witness :
    2 ≤ ((AddressBook.search
        ⟨pystr "f",
         [(pystr "a123",
           ⟨⟨pystr "a123"⟩, [⟨pystr "0012300000"⟩], none⟩)]⟩
        (pystr "123")).count
          ⟨⟨pystr "a123"⟩, [⟨pystr "0012300000"⟩], none⟩) :=
  (C4_search
    ⟨pystr "f",
     [(pystr "a123", ⟨⟨pystr "a123"⟩, [⟨pystr "0012300000"⟩], none⟩)]⟩
    (pystr "123")
    ⟨⟨pystr "a123"⟩, [⟨pystr "0012300000"⟩], none⟩).2
    (by decide) (by decide)
    ⟨⟨pystr "0012300000"⟩, by decide⟩

/-- C6: under any of the three caught exception kinds, each wrapped
dispatcher operation returns exactly the one generic message. -/
theorem C6_input_error_generic :
    ∀ (cts cts' : Dict Record) (name phone : PyStr) (bday : Option PyStr)
      (e : PyErr),
      (addContactRaw cts name phone bday = (cts', .error e) → e.caught = true →
        add_contact cts name phone bday = (cts', .ok genericMsg))
      ∧ (changeContactRaw cts name phone bday = (cts', .error e) →
          e.caught = true →
          change_contact cts name phone bday = (cts', .ok genericMsg))
      ∧ (phoneContactRaw cts name = (cts', .error e) → e.caught = true →
          phone_contact cts name = (cts', .ok genericMsg)) := by
  intro cts cts' name phone bday e
  refine ⟨fun h hc => ?_, fun h hc => ?_, fun h hc => ?_⟩
  · unfold add_contact inputError
    rw [h]
    simp [hc]
  · unfold change_contact inputError
    rw [h]
    simp [hc]
  · unfold phone_contact inputError
    rw [h]
    simp [hc]

/-- C6 witness: `phone` on a missing name collapses to the generic message. -/
theorem C6_witness :
    phone_contact [] (pystr "dana") = ([], .ok genericMsg) :=
  (C6_input_error_generic [] [] (pystr "dana") [] none .keyError).2.2 rfl rfl

/-- C7: a Phone field constructed successfully still stores a 10-digit
string after any sequence of assignment attempts, and an assignment that
raises leaves the stored value unchanged. -/
theorem C7_phone_field_invariant :
    ∀ (s₀ : PyStr) (p : Phone) (ss : List PyStr),
      Phone.make s₀ = .ok p →
      (((ss.foldl Phone.setK p).value.length = 10 ∧
         ∀ c ∈ (ss.foldl Phone.setK p).value, isDigitCp c = true)
       ∧ ∀ (q : Phone) (s : PyStr) (e : PyErr),
           Phone.set q s = .error e → Phone.setK q s = q) := by
  intro s₀ p ss hmk
  have hp : validPhone p := by
    rcases phone_validate_cases s₀ with hv | hv
    · have hps : p = ⟨s₀⟩ := by
        unfold Phone.make at hmk
        rw [hv] at hmk
        cases hmk
        rfl
      rw [hps]
      exact (phone_validate_ok_iff s₀).mp hv
    · unfold Phone.make at hmk
      rw [hv] at hmk
      cases hmk
  refine ⟨foldl_setK_valid ss p hp, ?_⟩
  intro q s e h
  unfold Phone.setK
  rw [h]

/-- C7 witness: build "0123456789", push two bad and one good assignment. -/
theorem C7_witness :
    (([pystr "12", pystr "9999999999", pystr "abc"].foldl Phone.setK
        ⟨pystr "0123456789"⟩).value.length = 10 ∧
      ∀ c ∈ ([pystr "12", pystr "9999999999", pystr "abc"].foldl Phone.setK
        ⟨pystr "0123456789"⟩).value, isDigitCp c = true)
    ∧ ∀ (q : Phone) (s : PyStr) (e : PyErr),
        Phone.set q s = .error e → Phone.setK q s = q :=
  C7_phone_field_invariant (pystr "0123456789") ⟨pystr "0123456789"⟩
    [pystr "12", pystr "9999999999", pystr "abc"] rfl

/-- C9: with a known name, a valid (truthy) new birthday and an invalid
new phone, `change_contact` returns the generic error message yet the
stored record already carries the new birthday, with its phone list
unchanged. -/
theorem C9_change_not_atomic :
    ∀ (cts : Dict Record) (name np nb : PyStr) (r : Record),
      alGet name cts = some r →
      Birthday.validate nb = .ok () →
      nb ≠ [] →
      Phone.validate np = .error .valueError →
      change_contact cts name np (some nb) =
        (alSet name { r with birthday := some ⟨nb⟩ } cts, .ok genericMsg)
      ∧ alGet name (change_contact cts name np (some nb)).1 =
          some ⟨r.name, r.phones, some ⟨nb⟩⟩ := by
  intro cts name np nb r hget hbd hne hph
  have hemp : nb.isEmpty = false := by
    cases nb with
    | nil => exact absurd rfl hne
    | cons a t => rfl
  have hmain : change_contact cts name np (some nb) =
      (alSet name { r with birthday := some ⟨nb⟩ } cts, .ok genericMsg) := by
    unfold change_contact changeContactRaw
    rw [hget]
    have hbmk : Birthday.make nb = .ok ⟨nb⟩ := by
      unfold Birthday.make
      rw [hbd]
      rfl
    have hpmk : Phone.make np = .error .valueError := by
      unfold Phone.make
      rw [hph]
      rfl
    simp only [pyTruthy, hemp, Bool.not_false, if_true, hbmk,
      Record.add_phone, hpmk, Except.map]
    rfl
  refine ⟨hmain, ?_⟩
  rw [hmain]
  exact alGet_alSet_self name _ cts

/-- C9 witness: alice's birthday is replaced even though the phone "12"
is rejected. -/
theorem C9_witness :
    change_contact
        [(pystr "alice", ⟨⟨pystr "alice"⟩, [⟨pystr "1234567890"⟩], none⟩)]
        (pystr "alice") (pystr "12") (some (pystr "1990-05-06")) =
      (alSet (pystr "alice")
        ⟨⟨pystr "alice"⟩, [⟨pystr "1234567890"⟩], some ⟨pystr "1990-05-06"⟩⟩
        [(pystr "alice", ⟨⟨pystr "alice"⟩, [⟨pystr "1234567890"⟩], none⟩)],
       .ok genericMsg) :=
  (C9_change_not_atomic
    [(pystr "alice", ⟨⟨pystr "alice"⟩, [⟨pystr "1234567890"⟩], none⟩)]
    (pystr "alice") (pystr "12") (pystr "1990-05-06")
    ⟨⟨pystr "alice"⟩, [⟨pystr "1234567890"⟩], none⟩
    rfl rfl (by simp [pystr]) rfl).1

theorem lowerCp_idem (c : Nat) : lowerCp (lowerCp c) = lowerCp c := by
  unfold lowerCp
  by_cases h : 65 ≤ c ∧ c ≤ 90
  · rw [if_pos h, if_neg (by omega)]
  · rw [if_neg h, if_neg h]

theorem pyLower_idem (s : PyStr) : pyLower (pyLower s) = pyLower s := by
  unfold pyLower
  rw [List.map_map]
  exact List.map_congr_left (fun c _ => lowerCp_idem c)

/-- C8: a session starts with the dispatcher's `contacts` map empty no
matter what the address book file held, so `show all` reports no
contacts, `phone` and `change` collapse to the generic error for every
loaded name, while `search` (which reads the book, not `contacts`)
still returns the loaded records. -/
theorem C8_contacts_not_loaded :
    ∀ (fs : FS) (st : Sess),
      mainStartup fs = .ok st →
      st.book.data ≠ [] →
      st.cts = initialContacts
      ∧ show_all_contacts st.cts = pystr "You have no contacts saved."
      ∧ (∀ name r, alGet name st.book.data = some r →
          ∀ np nb,
            phone_contact st.cts name = (st.cts, .ok genericMsg)
            ∧ change_contact st.cts name np nb = (st.cts, .ok genericMsg))
      ∧ (∀ q r, r ∈ alValues st.book.data →
          (strIn (pyLower q) (pyLower r.name.value) = true ∨
           ∃ p ∈ r.phones, strIn q p.value = true) →
          r ∈ st.book.search q) := by
  intro fs st hstart hnonempty
  have hcts : st.cts = initialContacts := by
    unfold mainStartup at hstart
    cases hmk : AddressBook.make (pystr "address_book_data.pkl") fs with
    | error e =>
      rw [hmk] at hstart
      cases hstart
    | ok b =>
      rw [hmk] at hstart
      cases hstart
      rfl
  refine ⟨hcts, ?_, ?_, ?_⟩
  · rw [hcts]
    rfl
  · intro name r hget np nb
    rw [hcts]
    exact ⟨rfl, rfl⟩
  · intro q r hv hm
    exact (mem_search_iff st.book q r).mpr ⟨hv, hm⟩

/-- C8 witness: a file holding one pickled record loads into the book,
yet `show all` still reports no contacts. -/
theorem C8_witness :
    show_all_contacts
      (Sess.cts ⟨[],
        ⟨pystr "address_book_data.pkl",
         [(pystr "alice", ⟨⟨pystr "alice"⟩, [⟨pystr "1234567890"⟩], none⟩)]⟩,
        [(pystr "address_book_data.pkl",
          pickleDump
            [(pystr "alice",
              ⟨⟨pystr "alice"⟩, [⟨pystr "1234567890"⟩], none⟩)])]⟩) =
      pystr "You have no contacts saved." :=
  (C8_contacts_not_loaded
    [(pystr "address_book_data.pkl",
      pickleDump
        [(pystr "alice", ⟨⟨pystr "alice"⟩, [⟨pystr "1234567890"⟩], none⟩)])]
    ⟨[],
     ⟨pystr "address_book_data.pkl",
      [(pystr "alice", ⟨⟨pystr "alice"⟩, [⟨pystr "1234567890"⟩], none⟩)]⟩,
     [(pystr "address_book_data.pkl",
       pickleDump
         [(pystr "alice", ⟨⟨pystr "alice"⟩, [⟨pystr "1234567890"⟩], none⟩)])]⟩
    (by decide) (by decide)).2.1

/-- C10: the CLI lowercases the whole line before parsing — dispatch is
insensitive to the input's case — and concretely `add Alice 1234567890`
stores the contact under the key "alice", which a later `phone ALICE`
resolves. -/
theorem C10_cli_lowercases :
    (∀ (st : Sess) (line : PyStr),
      processLine st line = processLine st (pyLower line))
    ∧ (∃ (st₁ : Sess) (r : Record) (out₁ : List PyStr),
        processLine ⟨[], ⟨pystr "address_book_data.pkl", []⟩, []⟩
            (pystr "add Alice 1234567890") = .ok (st₁, out₁, false)
        ∧ alGet (pystr "alice") st₁.cts = some r
        ∧ r.phones = [⟨pystr "1234567890"⟩]
        ∧ processLine st₁ (pystr "phone ALICE") =
            .ok (st₁, [pystr "Phone number for alice: 1234567890"], false)) := by
  constructor
  · intro st line
    unfold processLine
    rw [pyLower_idem]
  · refine ⟨⟨[(pystr "alice", ⟨⟨pystr "alice"⟩, [⟨pystr "1234567890"⟩], none⟩)],
      ⟨pystr "address_book_data.pkl",
       [(pystr "alice", ⟨⟨pystr "alice"⟩, [⟨pystr "1234567890"⟩], none⟩)]⟩,
      [(pystr "address_book_data.pkl",
        pickleDump
          [(pystr "alice",
            ⟨⟨pystr "alice"⟩, [⟨pystr "1234567890"⟩], none⟩)])]⟩,
      ⟨⟨pystr "alice"⟩, [⟨pystr "1234567890"⟩], none⟩,
      [pystr "The contact alice with the number 1234567890 has been added."],
      ?_, ?_, ?_, ?_⟩ <;> decide

end Betterbot
